import Mathlib

/-!
Shallow embedding of `src/adapter/openai-to-cli.ts` from
clawdiajune/claude-max-api-proxy: model-name resolution
(`extractModel` over `MODEL_MAP`), message flattening
(`extractText`, `messagesToPrompt`) and the adapter composition
(`openaiToCli`), with theorems checking the specification's claims.
-/

namespace ClaudeMaxApiProxy

/-- Embedding of a structured content block
`{ type: string, text?: string }`: the `text` field is optional in the
source, so it is an `Option String` here (`none` = `undefined`). -/
structure ContentBlock where
  type : String
  text : Option String
deriving DecidableEq, Repr

/-- Embedding of a message's `content` value. In the source it is typed
`string | Array<{ type: string; text?: string }>` but `extractText`
defensively handles any other runtime value by coercing it with
`String(content)`; the `other` constructor carries that coercion result. -/
inductive Content where
  | str (s : String)
  | blocks (bs : List ContentBlock)
  | other (coerced : String)
deriving DecidableEq, Repr

/-- Embedding of a chat message `{ role, content }`. The `role` is an
arbitrary string at runtime (the source's `switch` silently ignores roles
outside system/user/assistant), so it is a plain `String` here. -/
structure ChatMessage where
  role : String
  content : Content
deriving DecidableEq, Repr

/-- Modelled from the spec: the request type lives in
`src/types/openai.ts`, which is not part of this unit's source. Per the
spec's input contract (§6) the request carries `model : string`,
`messages`, and `user : optional string`; every remaining request field
(temperature, stream, ...) is modelled by the association list `other`,
which the adapter never reads. -/
structure OpenAIChatRequest where
  model : String
  messages : List ChatMessage
  user : Option String
  other : List (String × String)
deriving DecidableEq, Repr

/-- Runtime value produced by the property access `MODEL_MAP[key]` when
it is defined. `str s` is a string value (the table's own entries are the
tier strings). `protoMember name` is the member named `name` that a plain
object literal inherits from `Object.prototype` — a function, or for
`__proto__` the prototype object itself — which is truthy but is not a
string, even though the TypeScript annotation `Record<string, ClaudeModel>`
claims string-typed results. -/
inductive JsValue where
  | str (s : String)
  | protoMember (name : String)
deriving DecidableEq, Repr

/-- Embedding of the output record `CliInput`. The source types `model`
as the union `"opus" | "sonnet" | "haiku"`, but the runtime value flowing
into this field is whatever `extractModel` returns, which the
prototype-chain cases make a `JsValue`; the tier-membership of the usual
cases is proved, not assumed. `systemPrompt : string | null` and the
optional `sessionId` both become `Option String`. -/
structure CliInput where
  prompt : String
  systemPrompt : Option String
  model : JsValue
  sessionId : Option String
deriving DecidableEq, Repr

/-- Embedding of the object literal `MODEL_MAP` as an association list in
source key order. -/
def MODEL_MAP : List (String × String) :=
  [("claude-opus-4", "opus"),
   ("claude-sonnet-4", "sonnet"),
   ("claude-haiku-4", "haiku"),
   ("claude-code-cli/claude-opus-4", "opus"),
   ("claude-code-cli/claude-sonnet-4", "sonnet"),
   ("claude-code-cli/claude-haiku-4", "haiku"),
   ("opus", "opus"),
   ("sonnet", "sonnet"),
   ("haiku", "haiku")]

/-- Character-list test that `pat` occurs at the start of `s`, modelling
the anchored JavaScript pattern test (defined over `List Char` so that it
evaluates inside the kernel, which the `Substring`-based core functions
do not). -/
def charsLeading : List Char → List Char → Bool
  | [], _ => true
  | _ :: _, [] => false
  | c :: cs, d :: ds => c == d && charsLeading cs ds

/-- String wrapper of `charsLeading`: `strStartsWith s pat` holds when
`pat` is a leading segment of `s`. -/
def strStartsWith (s pat : String) : Bool :=
  charsLeading pat.data s.data

/-- ECMAScript whitespace for `String.prototype.trim`: WhiteSpace
(TAB, VT, FF, SP, NBSP, ZWNBSP and the Unicode Zs category) together
with the LineTerminator characters (LF, CR, LS, PS). -/
def isJsWhitespace (c : Char) : Bool :=
  c == ' ' || c == '\t' || c == '\n' || c == '\r' ||
  c == '\u000B' || c == '\u000C' || c == '\u00A0' || c == '\uFEFF' ||
  c == '\u1680' || ('\u2000' ≤ c && c ≤ '\u200A') ||
  c == '\u202F' || c == '\u205F' || c == '\u3000' ||
  c == '\u2028' || c == '\u2029'

/-- Model of `String.prototype.trim()`: remove leading and trailing
ECMAScript whitespace (defined over the character list so that it
evaluates inside the kernel). -/
def jsTrim (s : String) : String :=
  ⟨((s.data.dropWhile isJsWhitespace).reverse.dropWhile isJsWhitespace).reverse⟩

/-- Embedding of `model.replace(/^claude-code-cli\//, "")`: the regex is
anchored at the start, so it removes one leading occurrence of the
provider namespace and leaves any other string unchanged. -/
def stripProviderNamespace (model : String) : String :=
  if strStartsWith model "claude-code-cli/" then
    model.drop ("claude-code-cli/".length)
  else
    model

/-- Own-property keys of `Object.prototype`: a plain object literal such
as `MODEL_MAP` inherits these through its prototype chain, so the
property access `MODEL_MAP[k]` is defined (and truthy) for them even
though they are not own keys of the table. -/
def objectProtoKeys : List String :=
  ["constructor", "hasOwnProperty", "isPrototypeOf", "propertyIsEnumerable",
   "toLocaleString", "toString", "valueOf",
   "__defineGetter__", "__defineSetter__", "__lookupGetter__", "__lookupSetter__",
   "__proto__"]

/-- Embedding of the JavaScript property access `MODEL_MAP[key]`: an own
entry of the object literal when present, otherwise the member inherited
from `Object.prototype` when `key` names one, otherwise `undefined`
(`none`). -/
def modelMapAccess (key : String) : Option JsValue :=
  match MODEL_MAP.lookup key with
  | some v => some (.str v)
  | none => if key ∈ objectProtoKeys then some (.protoMember key) else none

/-- Embedding of `extractModel`. The truthiness test
`if (MODEL_MAP[model])` succeeds exactly when the property access is
defined, because every own value is a non-empty string and every
inherited `Object.prototype` member is a function or object, all truthy;
`undefined` is falsy. When the test succeeds the source returns the
accessed value itself — including the inherited non-string members. -/
def extractModel (model : String) : JsValue :=
  match modelMapAccess model with
  | some v => v
  | none =>
    match modelMapAccess (stripProviderNamespace model) with
    | some v => v
    | none => .str "opus"

/-- Embedding of `extractText`: a plain string is returned verbatim; a
block array is filtered to blocks with `type === "text"` and truthy
`text` (present and non-empty), mapped to their text and joined by a
newline; anything else is the `String(content)` coercion. -/
def extractText : Content → String
  | .str s => s
  | .blocks bs =>
      String.intercalate "\n"
        ((bs.filter fun b => b.type == "text" && !(b.text.getD "").isEmpty).map
          fun b => b.text.getD "")
  | .other coerced => coerced

/-- Embedding of one iteration of the `for (const msg of messages)` loop
in `messagesToPrompt`: the accumulator pairs `systemParts` with
`promptParts`, and `push` is appending at the end. -/
def collectMsg (acc : List String × List String) (msg : ChatMessage) :
    List String × List String :=
  let text := extractText msg.content
  if msg.role == "system" then
    (acc.1 ++ [text], acc.2)
  else if msg.role == "user" then
    (acc.1, acc.2 ++ [text])
  else if msg.role == "assistant" then
    (acc.1, acc.2 ++ ["<previous_response>\n" ++ text ++ "\n</previous_response>\n"])
  else
    acc

/-- Result record of `messagesToPrompt`: `systemPrompt : string | null`
becomes `Option String`. -/
structure PromptResult where
  prompt : String
  systemPrompt : Option String
deriving DecidableEq, Repr

/-- Embedding of `messagesToPrompt`: fold the loop body over the
messages, join `promptParts` with `"\n"` and trim, and return the
`"\n\n"`-join of `systemParts` when that list is non-empty, `null`
otherwise. -/
def messagesToPrompt (messages : List ChatMessage) : PromptResult :=
  let parts := messages.foldl collectMsg ([], [])
  { prompt := jsTrim (String.intercalate "\n" parts.2)
    systemPrompt :=
      if parts.1.length > 0 then some (String.intercalate "\n\n" parts.1)
      else none }

/-- Embedding of `openaiToCli`: compose the flattener and the resolver
and copy `request.user` through as `sessionId`. -/
def openaiToCli (request : OpenAIChatRequest) : CliInput :=
  let flat := messagesToPrompt request.messages
  { prompt := flat.prompt
    systemPrompt := flat.systemPrompt
    model := extractModel request.model
    sessionId := request.user }

/-- Specification-side view of the `systemParts` array: the extracted
texts of the system-role messages, in input order. -/
def systemPartsOf (ms : List ChatMessage) : List String :=
  ms.filterMap fun m =>
    if m.role == "system" then some (extractText m.content) else none

/-- Specification-side view of the `promptParts` array: user texts
verbatim and assistant texts wrapped in the `<previous_response>` tags,
in input order. -/
def promptPartsOf (ms : List ChatMessage) : List String :=
  ms.filterMap fun m =>
    if m.role == "user" then some (extractText m.content)
    else if m.role == "assistant" then
      some ("<previous_response>\n" ++ extractText m.content ++ "\n</previous_response>\n")
    else none

theorem foldl_collectMsg (ms : List ChatMessage) (s p : List String) :
    ms.foldl collectMsg (s, p) = (s ++ systemPartsOf ms, p ++ promptPartsOf ms) := by
  induction ms generalizing s p with
  | nil => simp [systemPartsOf, promptPartsOf]
  | cons m ms ih =>
    by_cases h1 : m.role = "system"
    · simp [collectMsg, systemPartsOf, promptPartsOf, h1, ih]
    · by_cases h2 : m.role = "user"
      · simp [collectMsg, systemPartsOf, promptPartsOf, h1, h2, ih]
      · by_cases h3 : m.role = "assistant"
        · simp [collectMsg, systemPartsOf, promptPartsOf, h1, h2, h3, ih]
        · simp [collectMsg, systemPartsOf, promptPartsOf, h1, h2, h3, ih]

theorem messagesToPrompt_eq (ms : List ChatMessage) :
    messagesToPrompt ms =
      { prompt := jsTrim (String.intercalate "\n" (promptPartsOf ms))
        systemPrompt :=
          if (systemPartsOf ms).length > 0 then
            some (String.intercalate "\n\n" (systemPartsOf ms))
          else none } := by
  unfold messagesToPrompt
  rw [foldl_collectMsg]
  simp

/-- Predicate for the three roles that the `switch` in `messagesToPrompt`
handles explicitly. -/
def isKnownRole (m : ChatMessage) : Bool :=
  m.role == "system" || m.role == "user" || m.role == "assistant"

theorem systemPartsOf_filter_known (ms : List ChatMessage) :
    systemPartsOf (ms.filter isKnownRole) = systemPartsOf ms := by
  induction ms with
  | nil => rfl
  | cons m ms ih =>
    by_cases h1 : m.role = "system"
    · simp [systemPartsOf, isKnownRole, h1, ih, systemPartsOf] at ih ⊢
      simpa [systemPartsOf] using ih
    · by_cases h2 : m.role = "user"
      · simp [systemPartsOf, isKnownRole, h1, h2] at ih ⊢
        simpa [systemPartsOf] using ih
      · by_cases h3 : m.role = "assistant"
        · simp [systemPartsOf, isKnownRole, h1, h2, h3] at ih ⊢
          simpa [systemPartsOf] using ih
        · simp [systemPartsOf, isKnownRole, h1, h2, h3] at ih ⊢
          simpa [systemPartsOf] using ih

theorem promptPartsOf_filter_known (ms : List ChatMessage) :
    promptPartsOf (ms.filter isKnownRole) = promptPartsOf ms := by
  induction ms with
  | nil => rfl
  | cons m ms ih =>
    by_cases h1 : m.role = "system"
    · simp [promptPartsOf, isKnownRole, h1] at ih ⊢
      simpa [promptPartsOf] using ih
    · by_cases h2 : m.role = "user"
      · simp [promptPartsOf, isKnownRole, h1, h2] at ih ⊢
        simpa [promptPartsOf] using ih
      · by_cases h3 : m.role = "assistant"
        · simp [promptPartsOf, isKnownRole, h1, h2, h3] at ih ⊢
          simpa [promptPartsOf] using ih
        · simp [promptPartsOf, isKnownRole, h1, h2, h3] at ih ⊢
          simpa [promptPartsOf] using ih

theorem systemPartsOf_eq_nil_iff (ms : List ChatMessage) :
    systemPartsOf ms = [] ↔ ∀ m ∈ ms, ¬ m.role = "system" := by
  unfold systemPartsOf
  rw [List.filterMap_eq_nil_iff]
  constructor
  · intro hall m hm
    by_contra hr
    have h2 := hall m hm
    simp [hr] at h2
  · intro hall m hm
    simp [hall m hm]

/-- Claim C1 fails on the code: at the input `toString` the property
access `MODEL_MAP["toString"]` walks the prototype chain and yields the
inherited `Object.prototype.toString` function, which is truthy, so
`extractModel` returns that function — not a string at all, let alone one
of the three tier values that the claim (and the source's own
`ClaudeModel` return type) promises. -/
theorem extractModel_toString_bug :
    extractModel "toString" = JsValue.protoMember "toString" ∧
    ∀ s, extractModel "toString" ≠ JsValue.str s := by
  constructor
  · decide
  · intro s h
    rw [(by decide : extractModel "toString" = JsValue.protoMember "toString")] at h
    exact JsValue.noConfusion h

/-- Claim C2, counterexample: a single system-role message with empty
content makes `messagesToPrompt` return the empty string as
`systemPrompt` (the source pushes the empty text onto `systemParts`, so
`systemParts.length > 0` and the join is `""`), contradicting the claim
that `systemPrompt` is never the empty string. -/
theorem systemPrompt_empty_cex :
    (messagesToPrompt [⟨"system", Content.str ""⟩]).systemPrompt = some "" := by
  decide

/-- Claim C2, amended: `systemPrompt` is absent exactly when the message
sequence contains no system-role message; otherwise it is the
double-newline join of the extracted system texts, which is the empty
string when all those texts are empty. -/
theorem systemPrompt_none_iff_no_system (ms : List ChatMessage) :
    ((messagesToPrompt ms).systemPrompt = none ↔ ∀ m ∈ ms, ¬ m.role = "system") ∧
    ((messagesToPrompt ms).systemPrompt = none ∨
      (messagesToPrompt ms).systemPrompt
        = some (String.intercalate "\n\n" (systemPartsOf ms))) := by
  rw [messagesToPrompt_eq]
  by_cases h : systemPartsOf ms = []
  · exact ⟨iff_of_true (by simp [h]) ((systemPartsOf_eq_nil_iff ms).mp h),
      Or.inl (by simp [h])⟩
  · have hpos : 0 < (systemPartsOf ms).length := List.length_pos.mpr h
    refine ⟨iff_of_false (by simp [hpos]) ?_, Or.inr (by simp [hpos])⟩
    intro hall
    exact h ((systemPartsOf_eq_nil_iff ms).mpr hall)

/-- Claim C3: `prompt` is the prompt-parts sequence (user texts verbatim,
assistant texts wrapped as
`<previous_response>\n` + text + `\n</previous_response>\n`, in input
order) joined by a newline and trimmed; on `[user "hi", assistant
"hello", user "more"]` it is exactly
`hi\n<previous_response>\nhello\n</previous_response>\n\nmore`. -/
theorem prompt_assistant_wrap_example :
    (∀ ms, (messagesToPrompt ms).prompt
      = jsTrim (String.intercalate "\n" (promptPartsOf ms))) ∧
    (messagesToPrompt [⟨"user", Content.str "hi"⟩, ⟨"assistant", Content.str "hello"⟩,
        ⟨"user", Content.str "more"⟩]).prompt
      = "hi\n<previous_response>\nhello\n</previous_response>\n\nmore" := by
  constructor
  · intro ms
    rw [messagesToPrompt_eq]
  · decide

/-- Claim C4's general default rule fails on the code: at the input
`claude-code-cli/valueOf` both lookups in the fixed table miss, so the
claim says the default opus, but the second truthiness test hits the
inherited `Object.prototype.valueOf` after the prefix is stripped and the
code returns that function instead. The claim's three concrete examples
do hold on the code. -/
theorem extractModel_default_branch_bug :
    MODEL_MAP.lookup "claude-code-cli/valueOf" = none ∧
    MODEL_MAP.lookup (stripProviderNamespace "claude-code-cli/valueOf") = none ∧
    extractModel "claude-code-cli/valueOf" = JsValue.protoMember "valueOf" ∧
    extractModel "claude-sonnet-4" = JsValue.str "sonnet" ∧
    extractModel "claude-code-cli/claude-haiku-4" = JsValue.str "haiku" ∧
    extractModel "gpt-4" = JsValue.str "opus" := by
  refine ⟨by decide, by decide, by decide, by decide, by decide, by decide⟩

/-- Claim C5: `systemPrompt` is the double-newline join of the system
texts in input order when at least one system-role message is present and
absent otherwise; on `[user "hi"]` it is absent and on
`[system "A", system "B"]` it is `A\n\nB`. -/
theorem systemPrompt_double_newline_join :
    (∀ ms, (messagesToPrompt ms).systemPrompt =
      if systemPartsOf ms = [] then none
      else some (String.intercalate "\n\n" (systemPartsOf ms))) ∧
    (messagesToPrompt [⟨"user", Content.str "hi"⟩]).systemPrompt = none ∧
    (messagesToPrompt [⟨"system", Content.str "A"⟩,
        ⟨"system", Content.str "B"⟩]).systemPrompt = some "A\n\nB" := by
  refine ⟨?_, by decide, by decide⟩
  intro ms
  rw [messagesToPrompt_eq]
  by_cases h : systemPartsOf ms = [] <;> simp [h, List.length_pos.mpr]

/-- Claim C6: `extractText` returns plain strings verbatim, flattens a
block array to the newline-join of the texts of the blocks whose type is
`text` and whose text is present and non-empty (so the mixed example
flattens to `a\nb`, and absent or empty texts are dropped), and returns
the string coercion for any other shape; as a total Lean function it
never throws. -/
theorem extractText_shapes :
    (∀ s, extractText (Content.str s) = s) ∧
    (∀ c, extractText (Content.other c) = c) ∧
    extractText (Content.blocks
      [⟨"text", some "a"⟩, ⟨"image", some "ignored"⟩, ⟨"text", some "b"⟩]) = "a\nb" ∧
    extractText (Content.blocks
      [⟨"text", none⟩, ⟨"text", some ""⟩, ⟨"text", some "x"⟩]) = "x" :=
  ⟨fun _ => rfl, fun _ => rfl, by decide, by decide⟩

/-- Claim C7: messages whose role is outside system/user/assistant are
ignored — `messagesToPrompt` returns the same result on a message
sequence as on its subsequence of known-role messages. -/
theorem unknown_roles_ignored (ms : List ChatMessage) :
    messagesToPrompt ms = messagesToPrompt (ms.filter isKnownRole) := by
  rw [messagesToPrompt_eq, messagesToPrompt_eq,
    systemPartsOf_filter_known, promptPartsOf_filter_known]

/-- Claim C8: the adapter copies the request's `user` field through
unchanged as `sessionId` — equal when present, absent when absent. -/
theorem sessionId_passthrough (request : OpenAIChatRequest) :
    (openaiToCli request).sessionId = request.user := rfl

/-- Claim C9: `openaiToCli` is a pure function of the request's
`messages`, `model` and `user` fields — two requests agreeing on those
three fields produce identical `CliInput` records regardless of any
other request fields. -/
theorem openaiToCli_deterministic (r1 r2 : OpenAIChatRequest)
    (hmsg : r1.messages = r2.messages) (hmodel : r1.model = r2.model)
    (huser : r1.user = r2.user) : openaiToCli r1 = openaiToCli r2 := by
  simp [openaiToCli, hmsg, hmodel, huser]

/-- Witness for C9: two concrete requests differing only in the extra
request fields map to the same `CliInput`. -/
theorem openaiToCli_deterministic_witness :
    openaiToCli
      { model := "sonnet", messages := [⟨"user", Content.str "hi"⟩],
        user := some "caller-1", other := [("temperature", "0")] } =
    openaiToCli
      { model := "sonnet", messages := [⟨"user", Content.str "hi"⟩],
        user := some "caller-1", other := [("stream", "true")] } :=
  openaiToCli_deterministic _ _ rfl rfl rfl

/-- Claim C10: user-role and assistant-role messages with empty extracted
text are not skipped — each contributes a prompt part (the prompt-parts
list is exactly as long as the list of user/assistant messages), an empty
assistant message contributes the literal
`<previous_response>\n\n</previous_response>\n` block, and interior empty
texts leave blank lines that the final trim keeps. -/
theorem empty_text_not_skipped :
    (∀ ms, (promptPartsOf ms).length =
      (ms.filter fun m => m.role == "user" || m.role == "assistant").length) ∧
    (messagesToPrompt [⟨"user", Content.str "a"⟩, ⟨"assistant", Content.str ""⟩,
        ⟨"user", Content.str "b"⟩]).prompt
      = "a\n<previous_response>\n\n</previous_response>\n\nb" ∧
    (messagesToPrompt [⟨"user", Content.str "a"⟩, ⟨"user", Content.str ""⟩,
        ⟨"user", Content.str "b"⟩]).prompt = "a\n\nb" := by
  refine ⟨?_, by decide, by decide⟩
  intro ms
  induction ms with
  | nil => rfl
  | cons m ms ih =>
    by_cases h1 : m.role = "system"
    · simp [promptPartsOf, h1] at ih ⊢
      simpa [promptPartsOf] using ih
    · by_cases h2 : m.role = "user"
      · simp [promptPartsOf, h1, h2] at ih ⊢
        simpa [promptPartsOf] using ih
      · by_cases h3 : m.role = "assistant"
        · simp [promptPartsOf, h1, h2, h3] at ih ⊢
          simpa [promptPartsOf] using ih
        · simp [promptPartsOf, h1, h2, h3] at ih ⊢
          simpa [promptPartsOf] using ih

end ClaudeMaxApiProxy
